import Mathlib

set_option maxHeartbeats 1000000

/-!
Shallow embedding of `pint/model.py` (pypint): the `InitialState`
override-tracking mapping, its serialization `to_pint`, the `Model` /
`FileModel` / `InMemoryModel` class hierarchy around `populate_popen_args`,
and the `load` format-resolution entry point.

Python dictionaries are embedded as association lists in insertion order,
Python exceptions as an explicit error type threaded through `Except`.
Messages that contain an ASCII apostrophe in the source are written with
the escape `\x27` here.
-/

/-- Python scalar value (int or str), as stored in an automaton's domain set
`set(info["local_states"][a] + info["named_local_states"][a])`. -/
inductive PyScalar
  | i (n : Int)
  | s (str : String)
deriving DecidableEq, Repr

/-- Python values handled by `InitialState`: exactly the five runtime types
`int, str, list, set, tuple` accepted by `InitialState.__setitem__`.
Python `set` iteration order is modelled by the order of the element list.
Equality of these constructors coincides with Python `==` on every
comparison the source performs (the left operand of the only `==` in
`__setitem__` is always an `int`, `str` or `tuple` after normalization,
and Python `tuple == list`, `tuple == set` are `False` as here). -/
inductive PyVal
  | int (n : Int)
  | str (s : String)
  | list (xs : List PyVal)
  | tuple (xs : List PyVal)
  | set (xs : List PyVal)

mutual

/-- Structural (= Python `==` on the comparisons the source performs)
decidable equality for `PyVal`. -/
def PyVal.decEq : (a b : PyVal) → Decidable (a = b)
  | .int m, .int n =>
    if h : m = n then .isTrue (by rw [h]) else .isFalse (fun hh => h (PyVal.int.inj hh))
  | .str s, .str t =>
    if h : s = t then .isTrue (by rw [h]) else .isFalse (fun hh => h (PyVal.str.inj hh))
  | .list xs, .list ys =>
    match PyVal.decEqList xs ys with
    | .isTrue h => .isTrue (by rw [h])
    | .isFalse h => .isFalse (fun hh => h (PyVal.list.inj hh))
  | .tuple xs, .tuple ys =>
    match PyVal.decEqList xs ys with
    | .isTrue h => .isTrue (by rw [h])
    | .isFalse h => .isFalse (fun hh => h (PyVal.tuple.inj hh))
  | .set xs, .set ys =>
    match PyVal.decEqList xs ys with
    | .isTrue h => .isTrue (by rw [h])
    | .isFalse h => .isFalse (fun hh => h (PyVal.set.inj hh))
  | .int _, .str _ => .isFalse (fun h => PyVal.noConfusion h)
  | .int _, .list _ => .isFalse (fun h => PyVal.noConfusion h)
  | .int _, .tuple _ => .isFalse (fun h => PyVal.noConfusion h)
  | .int _, .set _ => .isFalse (fun h => PyVal.noConfusion h)
  | .str _, .int _ => .isFalse (fun h => PyVal.noConfusion h)
  | .str _, .list _ => .isFalse (fun h => PyVal.noConfusion h)
  | .str _, .tuple _ => .isFalse (fun h => PyVal.noConfusion h)
  | .str _, .set _ => .isFalse (fun h => PyVal.noConfusion h)
  | .list _, .int _ => .isFalse (fun h => PyVal.noConfusion h)
  | .list _, .str _ => .isFalse (fun h => PyVal.noConfusion h)
  | .list _, .tuple _ => .isFalse (fun h => PyVal.noConfusion h)
  | .list _, .set _ => .isFalse (fun h => PyVal.noConfusion h)
  | .tuple _, .int _ => .isFalse (fun h => PyVal.noConfusion h)
  | .tuple _, .str _ => .isFalse (fun h => PyVal.noConfusion h)
  | .tuple _, .list _ => .isFalse (fun h => PyVal.noConfusion h)
  | .tuple _, .set _ => .isFalse (fun h => PyVal.noConfusion h)
  | .set _, .int _ => .isFalse (fun h => PyVal.noConfusion h)
  | .set _, .str _ => .isFalse (fun h => PyVal.noConfusion h)
  | .set _, .list _ => .isFalse (fun h => PyVal.noConfusion h)
  | .set _, .tuple _ => .isFalse (fun h => PyVal.noConfusion h)

/-- Decidable equality of `PyVal` lists, mutual with `PyVal.decEq`. -/
def PyVal.decEqList : (xs ys : List PyVal) → Decidable (xs = ys)
  | [], [] => .isTrue rfl
  | [], _ :: _ => .isFalse (fun h => List.noConfusion h)
  | _ :: _, [] => .isFalse (fun h => List.noConfusion h)
  | x :: xs, y :: ys =>
    match PyVal.decEq x y, PyVal.decEqList xs ys with
    | .isTrue h1, .isTrue h2 => .isTrue (by rw [h1, h2])
    | .isFalse h1, _ => .isFalse (fun h => h1 (List.cons.inj h).1)
    | _, .isFalse h2 => .isFalse (fun h => h2 (List.cons.inj h).2)

end

instance : DecidableEq PyVal := PyVal.decEq

/-- Python exceptions raised by the embedded code. `keyError k` carries the
offending key, the others their message string. -/
inductive PyErr
  | typeError (msg : String)
  | keyError (key : String)
  | assertionError (msg : String)
  | valueError (msg : String)
  | attributeError (msg : String)
deriving DecidableEq, Repr

/-- Lookup in a Python dict embedded as an association list (first match;
dicts built by the embedded operations have unique keys). -/
def assocLookup {α : Type} : List (String × α) → String → Option α
  | [], _ => none
  | (k, v) :: rest, key => if k = key then some v else assocLookup rest key

/-- Python `d[key] = value`: replace in place if present (keeping the
original insertion position), else append. -/
def assocSet {α : Type} : List (String × α) → String → α → List (String × α)
  | [], key, value => [(key, value)]
  | (k, v) :: rest, key, value =>
      if k = key then (key, value) :: rest else (k, v) :: assocSet rest key value

/-- Python `del d[key]` once the key is known to be present: drop the
entry (dicts built by the embedded operations have unique keys). -/
def assocErase {α : Type} : List (String × α) → String → List (String × α)
  | [], _ => []
  | (k, v) :: rest, key =>
      if k = key then assocErase rest key else (k, v) :: assocErase rest key

/-- Python `d.update(other)`: set every entry of `other` in order. -/
def dictUpdate {α : Type} (base other : List (String × α)) : List (String × α) :=
  other.foldl (fun b kv => assocSet b kv.1 kv.2) base

/-- Python `sep.join(strings)`. -/
def pyJoin (sep : String) : List String → String
  | [] => ""
  | [x] => x
  | x :: y :: rest => x ++ sep ++ pyJoin sep (y :: rest)

/-- Python `str.split(sep)` for a one-character separator, over the
character list (structural recursion, so that concrete proofs compute):
`"a.b".split(".") = ["a", "b"]`, `"".split(".") = [""]`. -/
def splitChars (sep : Char) : List Char → List (List Char)
  | [] => [[]]
  | c :: rest =>
    match splitChars sep rest with
    | [] => [[]]
    | g :: gs => if c = sep then [] :: g :: gs else (c :: g) :: gs

/-- `pySplit sep s`: the pieces of `s` between occurrences of `sep`. -/
def pySplit (sep : Char) (s : String) : List String :=
  (splitChars sep s.toList).map String.mk

/-- Python `str.lower()` (ASCII case mapping suffices here). -/
def pyLower (s : String) : String :=
  String.mk (s.toList.map Char.toLower)

/-- Python slicing `s[:-k]` for `k ≥ 1`: drop the last `k` characters
(empty result when `k` exceeds the length). -/
def pyDropRight (s : String) (k : Nat) : String :=
  String.mk (s.toList.take (s.toList.length - k))

/-- Python `str()` of a domain element, used in the "allowed: ..." message. -/
def scalarStr : PyScalar → String
  | .i n => toString n
  | .s s => s

/-- The model metadata blob (`nbjson` output of `pint-export`): fields used
by `InitialState.__init__` and the `Model` accessors. -/
structure Info where
  automata : List String
  local_states : List (String × List Int)
  named_local_states : List (String × List String)
  initial_state : List (String × PyVal)

/-- The state of an `InitialState` object. `base` is the content of the
inherited built-in `dict` (written by `super().__setitem__` and friends but
never read back by the overridden accessors); `defaults`, `domain` and
`override` are the attributes of the same names (`__override` unmangled). -/
structure InitialState where
  base : List (String × PyVal)
  defaults : List (String × PyVal)
  domain : List (String × List PyScalar)
  override : List (String × PyVal)

/-- One iteration step of the `for a in info["automata"]` loop of
`InitialState.__init__`: build `domain[a]` from `local_states[a] +
named_local_states[a]` (a Python `set`, modelled as the concatenated list),
then normalize a list-typed `defaults[a]` to a tuple. Each dict subscript
raises `KeyError` when the key is missing. -/
def initLoop (info : Info) : InitialState → List String → Except PyErr InitialState
  | st, [] => .ok st
  | st, a :: rest =>
    match assocLookup info.local_states a with
    | none => .error (.keyError a)
    | some ls =>
      match assocLookup info.named_local_states a with
      | none => .error (.keyError a)
      | some nls =>
        let st1 : InitialState :=
          { st with domain := assocSet st.domain a (ls.map PyScalar.i ++ nls.map PyScalar.s) }
        match assocLookup st1.defaults a with
        | none => .error (.keyError a)
        | some dv =>
          match dv with
          | .list xs =>
              initLoop info { st1 with defaults := assocSet st1.defaults a (.tuple xs) } rest
          | _ => initLoop info st1 rest

/-- `InitialState.__init__(info, defaults)`: `defaults` falls back to
`info["initial_state"]`; the inherited dict is initialized from the (not yet
normalized) defaults; then the per-automaton loop runs; `__override` starts
empty. -/
def InitialState.init (info : Info) (defaults? : Option (List (String × PyVal))) :
    Except PyErr InitialState :=
  let defaults0 := defaults?.getD info.initial_state
  initLoop info { base := defaults0, defaults := defaults0, domain := [], override := [] }
    info.automata

/-- `InitialState.is_custom`: `len(self.__override) > 0`. -/
def InitialState.is_custom (st : InitialState) : Bool :=
  !st.override.isEmpty

/-- `InitialState.__getitem__`: `self.__override.get(key, self.defaults[key])`.
Python evaluates the fallback argument `self.defaults[key]` eagerly, so a key
missing from `defaults` raises `KeyError` even when overridden. -/
def InitialState.getitem (st : InitialState) (key : String) : Except PyErr PyVal :=
  match assocLookup st.defaults key with
  | none => .error (.keyError key)
  | some d => .ok ((assocLookup st.override key).getD d)

/-- `InitialState.__delitem__`: `del self.__override[key]` (raising `KeyError`
when no override exists), then `super().__setitem__(key, self.defaults[key])`. -/
def InitialState.delitem (st : InitialState) (key : String) : Except PyErr InitialState :=
  match assocLookup st.override key with
  | none => .error (.keyError key)
  | some _ =>
    match assocLookup st.defaults key with
    | none => .error (.keyError key)
    | some d =>
      .ok { st with override := assocErase st.override key,
                    base := assocSet st.base key d }

/-- Whether `type(value) in [int, str]`. -/
def isScalarType : PyVal → Bool
  | .int _ => true
  | .str _ => true
  | _ => false

mutual

/-- Whether a Python value is hashable (may be a `set` element): `int`,
`str`, and tuples of hashable values are; `list` and `set` are not. -/
def pyHashable : PyVal → Bool
  | .int _ => true
  | .str _ => true
  | .tuple xs => pyHashableList xs
  | .list _ => false
  | .set _ => false

/-- `pyHashable` on every element of a list. -/
def pyHashableList : List PyVal → Bool
  | [] => true
  | x :: rest => pyHashable x && pyHashableList rest

end

/-- Elements of an iterated compound passed to Python `set(...)`: each
element must be hashable, else `TypeError`. -/
def pySetOfElems : List PyVal → Except PyErr (List PyVal)
  | [] => .ok []
  | x :: rest =>
    if pyHashable x then
      match pySetOfElems rest with
      | .error e => .error e
      | .ok s => .ok (x :: s)
    else .error (.typeError "unhashable type")

/-- Python `set(value)`: iterating an `int` raises `TypeError`; a `str`
yields its characters as one-character strings; `list`/`set`/`tuple` yield
their (hashable) elements. Deduplication is omitted: only membership tests
are performed on the result. -/
def pySetOf : PyVal → Except PyErr (List PyVal)
  | .int _ => .error (.typeError "\x27int\x27 object is not iterable")
  | .str s => .ok (s.toList.map (fun c => PyVal.str (String.singleton c)))
  | .list xs => pySetOfElems xs
  | .tuple xs => pySetOfElems xs
  | .set xs => pySetOfElems xs

/-- Python membership `x in dom` of a value in a domain set of scalars
(`==` between a non-scalar and a scalar is `False`). -/
def memDom (x : PyVal) (dom : List PyScalar) : Bool :=
  match x with
  | .int n => decide (PyScalar.i n ∈ dom)
  | .str s => decide (PyScalar.s s ∈ dom)
  | _ => false

/-- Python `tuple(value)` for a compound `value` (the call is only reached
when `type(value) not in [int, str]`); a `set` is iterated in its modelled
element order. -/
def iterElems : PyVal → List PyVal
  | .list xs => xs
  | .tuple xs => xs
  | .set xs => xs
  | _ => []

/-- `InitialState.__setitem__(key, value)`. The leading
`type(value) not in [int, str, list, set, tuple]` check is vacuous here
because `PyVal` has exactly those five constructors. The `else` branch of
the domain test raises `TypeError("Invalid value for '%s' (allowed: %s)")`;
Python set iteration order in that message is modelled by the domain list
order. In the success branch, a value equal to the default runs the bare
`del self.__override[key]` (raising `KeyError` when no override exists, and
leaving the inherited dict `base` untouched); otherwise the override is
recorded and mirrored into `base`. -/
def InitialState.setitem (st : InitialState) (key : String) (value : PyVal) :
    Except PyErr InitialState :=
  match assocLookup st.defaults key with
  | none => .error (.typeError ("Unknown automaton \x27" ++ key ++ "\x27"))
  | some d =>
    match assocLookup st.domain key with
    | none => .error (.keyError key)
    | some dom =>
      match (if isScalarType value && memDom value dom then Except.ok true
             else
               match pySetOf value with
               | .error e => .error e
               | .ok s => .ok (s.all (fun x => memDom x dom)) : Except PyErr Bool) with
      | .error e => .error e
      | .ok cond =>
        if cond then
          if (if isScalarType value then value else PyVal.tuple (iterElems value)) = d then
            match assocLookup st.override key with
            | none => .error (.keyError key)
            | some _ => .ok { st with override := assocErase st.override key }
          else
            .ok { st with
              override := assocSet st.override key
                (if isScalarType value then value else PyVal.tuple (iterElems value)),
              base := assocSet st.base key
                (if isScalarType value then value else PyVal.tuple (iterElems value)) }
        else
          .error (.typeError ("Invalid value for \x27" ++ key ++ "\x27 (allowed: " ++
            pyJoin ", " (dom.map scalarStr) ++ ")"))

/-- `InitialState.reset`: clear `__override`, then `dict.update(defaults)`
on the inherited dict. -/
def InitialState.reset (st : InitialState) : InitialState :=
  { st with override := [], base := dictUpdate st.base st.defaults }

/-- The values produced by the nested `fmt_values` helper of
`InitialState.to_pint`: a Python `str`, or a Python list of such results
(the compound branch of `fmt_values` returns the list of recursive results
without flattening it). -/
inductive PyStrish
  | pstr (s : String)
  | plist (xs : List PyStrish)

/-- Single-quote character (written via its code point to keep apostrophes
out of the source text). -/
def sqChar : Char := Char.ofNat 39

/-- Double-quote character. -/
def dqChar : Char := Char.ofNat 34

/-- Backslash character. -/
def bsChar : Char := Char.ofNat 92

/-- Escaping for Python `repr` of a string under the chosen quote character
`q`: backslashes and occurrences of `q` are escaped. (Non-printable escapes
are not modelled; every string rendered here is printable.) -/
def pyEscape (q : Char) (s : String) : String :=
  String.mk (s.toList.foldr
    (fun c acc =>
      if c = bsChar then bsChar :: c :: acc
      else if c = q then bsChar :: c :: acc
      else c :: acc) [])

/-- Python `repr` of a `str`: single-quoted, unless the string contains a
single quote and no double quote, in which case double-quoted. -/
def pyStrRepr (s : String) : String :=
  let q := if s.toList.contains sqChar && !(s.toList.contains dqChar) then dqChar else sqChar
  String.singleton q ++ pyEscape q s ++ String.singleton q

mutual

/-- Python `repr` of a `fmt_values` result item; a list renders as the
square-bracketed comma-join of its elements' `repr`s. -/
def pyStrishRepr : PyStrish → String
  | .pstr s => pyStrRepr s
  | .plist xs => "[" ++ pyJoin ", " (pyStrishReprList xs) ++ "]"

/-- `repr` of each item of a list of `fmt_values` results. -/
def pyStrishReprList : List PyStrish → List String
  | [] => []
  | x :: rest => pyStrishRepr x :: pyStrishReprList rest

end

/-- Python `"%s" % x` on a `fmt_values` result item: a `str` is inserted
verbatim; a list is inserted via `str()`, which for lists coincides with
`repr()` (elements shown by `repr`). -/
def pyFormat : PyStrish → String
  | .pstr s => s
  | .plist xs => "[" ++ pyJoin ", " (pyStrishReprList xs) ++ "]"

mutual

/-- The nested helper `fmt_values` of `InitialState.to_pint`: an `int`
yields the singleton list of its decimal digits, a `str` the singleton list
of the double-quoted value, and any other (compound) value the list
`[fmt_values(j) for j in i]` of unflattened recursive results. -/
def fmt_values : PyVal → List PyStrish
  | .int n => [.pstr (toString n)]
  | .str s => [.pstr ("\"" ++ s ++ "\"")]
  | .list xs => fmt_valuesList xs
  | .tuple xs => fmt_valuesList xs
  | .set xs => fmt_valuesList xs

/-- `[fmt_values(j) for j in i]`: each recursive result stays a list. -/
def fmt_valuesList : List PyVal → List PyStrish
  | [] => []
  | j :: rest => .plist (fmt_values j) :: fmt_valuesList rest

end

/-- The nested helper `pint_of_keyvalue` of `InitialState.to_pint`:
`["\"%s\"=%s" % (a, i) for i in fmt_values(i)]`. -/
def pint_of_keyvalue (a : String) (i : PyVal) : List String :=
  (fmt_values i).map (fun x => "\"" ++ a ++ "\"=" ++ pyFormat x)

/-- `InitialState.to_pint`: concatenate `pint_of_keyvalue` over the
`__override` items in insertion order and comma-join the terms. -/
def InitialState.to_pint (st : InitialState) : String :=
  pyJoin "," (st.override.foldl (fun lss kv => lss ++ pint_of_keyvalue kv.1 kv.2) [])

/-- `os.path.basename`: the substring after the last `/`. -/
def basename (filename : String) : String :=
  (pySplit (Char.ofNat 47) filename).getLastD ""

/-- `file_ext`: when the basename contains a dot, the lowercased substring
after the last dot (`filename.split(".")[-1].lower()`); otherwise the
function body falls through and Python returns `None`. -/
def file_ext (filename : String) : Option String :=
  let fname := basename filename
  if fname.toList.contains (Char.ofNat 46) then
    some (pyLower ((pySplit (Char.ofNat 46) fname).getLastD ""))
  else none

/-- The fixed `ext2format` extension table. -/
def ext2format : List (String × String) :=
  [("an", "an"),
   ("bn", "boolfunctions"),
   ("booleannet", "booleannet"),
   ("boolfunctions", "boolfunctions"),
   ("boolsim", "boolsim"),
   ("sbml", "sbml")]

/-- The dispatch decision reached by `load` when it does not raise: either
the native branch (`FileModel(filename)` construction) or the foreign
branch (delegation to `import_using_logicalmodel` with the resolved format,
the input file, an output file whose temporary path carries the suffix
`name ++ ".an"`, and the simplify flag). The construction of the resulting
model objects invokes external processes and is outside this embedding. -/
inductive LoadResult
  | nativeFile (filename : String)
  | imported (format : String) (inputfile : String) (anfileSuffix : String) (simplify : Bool)
deriving DecidableEq

/-- `load(filename, format, simplify)` up to its dispatch decision.
The filesystem and network are abstracted by two booleans: `hasNetloc`
models the truthiness of `urlparse(filename).netloc` (a remote path is
downloaded, which replaces `filename` with a temporary local copy — the
copied path is not tracked in the result), and `existsLocal` the truthiness
of `os.path.exists(filename)` for a local path. Faithful operation order:
`name = bname[:-len(ext)-1]` is computed before format resolution, so a
dotless filename raises `TypeError` from `len(None)` even when a format is
declared; the `assert ext in ext2format` (an `AssertionError` with message
`Unknown extension ...`) runs only when no format is declared; the bare
`assert os.path.exists(filename)` (an `AssertionError` with empty message)
runs only for local paths; the final `else` raises
`ValueError("Format ... is not supported.")`. -/
def load (filename : String) (format : Option String)
    (hasNetloc existsLocal simplify : Bool) : Except PyErr LoadResult :=
  match file_ext filename with
  | none => .error (.typeError "object of type \x27NoneType\x27 has no len()")
  | some ext =>
    match (match format with
           | none =>
             match assocLookup ext2format ext with
             | some f => Except.ok f
             | none =>
               Except.error (PyErr.assertionError ("Unknown extension \x27" ++ ext ++ "\x27"))
           | some f => Except.ok f : Except PyErr String) with
    | .error e => .error e
    | .ok fmt =>
      if (!hasNetloc && !existsLocal) = true then .error (.assertionError "")
      else if fmt = "an" then .ok (.nativeFile filename)
      else if fmt = "boolfunctions" || fmt = "boolsim" || fmt = "booleannet" || fmt = "sbml" then
        .ok (.imported fmt filename
          (pyDropRight (basename filename) (ext.toList.length + 1) ++ ".an") simplify)
      else .error (.valueError ("Format \x27" ++ fmt ++ "\x27 is not supported."))

/-- The errors classified as `UnsupportedFormatError` by the specification's
taxonomy: the failed `assert ext in ext2format` (an `AssertionError` whose
message is `Unknown extension '...'`) or the final
`ValueError("Format '...' is not supported.")` of `load`. The bare existence
assertion (empty message) is the distinct missing-local-file precondition
failure, and the `TypeError` from `len(None)` is no format error at all. -/
def isUnsupportedFormatError (e : PyErr) : Prop :=
  (∃ s, e = .assertionError ("Unknown extension \x27" ++ s ++ "\x27")) ∨
  (∃ s, e = .valueError ("Format \x27" ++ s ++ "\x27 is not supported."))

/-- The format `load` acts on: the declared one when given, else the
extension-table entry for the file's extension. -/
def resolvedFormat (filename : String) (format : Option String) : Option String :=
  match format with
  | some f => some f
  | none => (file_ext filename).bind (fun e => assocLookup ext2format e)

/-- Membership in the native set `{an}` or the foreign set
`{boolfunctions, boolsim, booleannet, sbml}` of `load`'s dispatch. -/
def supportedFormat (f : String) : Prop :=
  f = "an" ∨ f = "boolfunctions" ∨ f = "boolsim" ∨ f = "booleannet" ∨ f = "sbml"

instance : DecidablePred supportedFormat := fun f => by
  unfold supportedFormat; infer_instance

/-- The condition under which claim C6 states that `load` fails with
`UnsupportedFormatError`: no declared format and the extension absent from
the table, or a resolved format outside the native and foreign sets. -/
def claimC6Condition (filename : String) (format : Option String) : Prop :=
  (format = none ∧ (file_ext filename).bind (fun e => assocLookup ext2format e) = none) ∨
  (∃ f, resolvedFormat filename format = some f ∧ ¬ supportedFormat f)

/-- The Python classes of the model hierarchy. -/
inductive ModelClass
  | model
  | fileModel
  | inMemoryModel
deriving DecidableEq

/-- Python `issubclass`: every class is a subclass of itself and of
`Model`; `FileModel` and `InMemoryModel` are unrelated to each other. -/
def isSubclass (c d : ModelClass) : Bool :=
  decide (c = d) || decide (d = ModelClass.model)

/-- The state of a model object: its runtime class and the attributes
assigned by the constructors of the hierarchy (attributes not yet assigned
are `none`). -/
structure Model where
  cls : ModelClass
  filename : Option String
  data : Option String
  info : Option Info
  initial_state : Option InitialState
  named_states : List (String × InitialState)

/-- The arguments being assembled for the `pint-export` subprocess call:
the positional `args` list and the `input` keyword argument. -/
structure PopenArgs where
  args : List String
  input : Option String
deriving DecidableEq

/-- `Model.populate_popen_args`: when a custom initial state is present,
append `--initial-context` and the serialized overrides. -/
def Model.populate_popen_args (self : Model) (p : PopenArgs) : PopenArgs :=
  match self.initial_state with
  | some st =>
    if st.is_custom then { p with args := p.args ++ ["--initial-context", st.to_pint] }
    else p
  | none => p

/-- `super(FileModel, self).populate_popen_args(...)`: Python first checks
that `self` is an instance (or subtype instance) of `FileModel` — else
`TypeError` — and then resolves to the next class after `FileModel` in the
MRO, which is `Model`. -/
def superFileModel_populate_popen_args (self : Model) (p : PopenArgs) :
    Except PyErr PopenArgs :=
  if isSubclass self.cls .fileModel then .ok (Model.populate_popen_args self p)
  else .error (.typeError "super(type, obj): obj must be an instance or subtype of type")

/-- `FileModel.populate_popen_args`: append `-i filename`, then the
`super(FileModel, self)` call. -/
def FileModel.populate_popen_args (self : Model) (p : PopenArgs) : Except PyErr PopenArgs :=
  superFileModel_populate_popen_args self
    { p with args := p.args ++ ["-i", self.filename.getD ""] }

/-- `InMemoryModel.populate_popen_args`: set `kwargs["input"] = self.data`,
then — exactly as written in the source — the `super(FileModel, self)`
call, although `InMemoryModel` is not a subclass of `FileModel`. -/
def InMemoryModel.populate_popen_args (self : Model) (p : PopenArgs) :
    Except PyErr PopenArgs :=
  superFileModel_populate_popen_args self { p with input := self.data }

/-- Dynamic dispatch of `self.populate_popen_args(args, kwargs)` on the
runtime class of `self`. -/
def populate_popen_args_dispatch (self : Model) (p : PopenArgs) : Except PyErr PopenArgs :=
  match self.cls with
  | .model => .ok (Model.populate_popen_args self p)
  | .fileModel => FileModel.populate_popen_args self p
  | .inMemoryModel => InMemoryModel.populate_popen_args self p

/-- `Model.load`: assemble `["pint-export", "-l", "nbjson"]`, clear
`self.initial_state`, dispatch `populate_popen_args`, run the external
`subprocess.check_output` + `json.loads` (abstracted by `oracle`), then
construct the primary `InitialState` from the returned metadata. -/
def Model.load (self : Model) (oracle : PopenArgs → Except PyErr Info) : Except PyErr Model :=
  let self1 : Model := { self with initial_state := none }
  match populate_popen_args_dispatch self1 { args := ["pint-export", "-l", "nbjson"], input := none } with
  | .error e => .error e
  | .ok p =>
    match oracle p with
    | .error e => .error e
    | .ok info =>
      match InitialState.init info none with
      | .error e => .error e
      | .ok ist => .ok { self1 with info := some info, initial_state := some ist }

/-- `InMemoryModel.__init__(data)`: `Model.__init__` (empty `named_states`),
assign `self.data`, then `self.load()`. -/
def InMemoryModel.new (data : String) (oracle : PopenArgs → Except PyErr Info) :
    Except PyErr Model :=
  Model.load
    { cls := .inMemoryModel, filename := none, data := some data,
      info := none, initial_state := none, named_states := [] } oracle

/-- `FileModel.__init__(filename)`: `Model.__init__`, assign
`self.filename`, then `self.load()`. -/
def FileModel.new (filename : String) (oracle : PopenArgs → Except PyErr Info) :
    Except PyErr Model :=
  Model.load
    { cls := .fileModel, filename := some filename, data := none,
      info := none, initial_state := none, named_states := [] } oracle

/-- `Model.register_state(name, state)`:
`self.named_states[name] = InitialState(self.info, defaults=state)`; an
exception from the constructor propagates before the assignment, so the
named state is then not registered. -/
def Model.register_state (self : Model) (name : String)
    (state : List (String × PyVal)) : Except PyErr Model :=
  match self.info with
  | none => .error (.attributeError "info")
  | some info =>
    match InitialState.init info (some state) with
    | .error e => .error e
    | .ok st => .ok { self with named_states := assocSet self.named_states name st }

/-- The top-level normalization `InitialState.__init__` applies to a
default entry: a list becomes the tuple of its elements, anything else is
unchanged. -/
def normTop : PyVal → PyVal
  | .list xs => .tuple xs
  | .int n => .int n
  | .str s => .str s
  | .tuple xs => .tuple xs
  | .set xs => .set xs

/-- Metadata of a model with one automaton `C` over the three-valued domain
`{0, 1, 2}` and default initial value `2`. -/
def infoC : Info where
  automata := ["C"]
  local_states := [("C", [0, 1, 2])]
  named_local_states := [("C", [])]
  initial_state := [("C", .int 2)]

/-- Metadata of a model with automata `A` (integer domain `{0, 1}`, default
`0`) and `B` (named-state domain `{x, y}`, default `"y"`). -/
def infoAB : Info where
  automata := ["A", "B"]
  local_states := [("A", [0, 1]), ("B", [])]
  named_local_states := [("A", []), ("B", ["x", "y"])]
  initial_state := [("A", .int 0), ("B", .str "y")]

/-- Metadata of a model with one automaton `A` whose domain is the named
local states `{a, b}`, default `"a"`. -/
def infoS : Info where
  automata := ["A"]
  local_states := [("A", [])]
  named_local_states := [("A", ["a", "b"])]
  initial_state := [("A", .str "a")]

/-- The `InitialState` of `infoAB` after `set("A", 1)`: override on `A`. -/
def stABover : InitialState where
  base := [("A", .int 1), ("B", .str "y")]
  defaults := [("A", .int 0), ("B", .str "y")]
  domain := [("A", [.i 0, .i 1]), ("B", [.s "x", .s "y"])]
  override := [("A", .int 1)]

/-- The `InitialState` of `infoAB` after `set("A", 1)` then
`set("B", "x")`: overrides on `A` and `B` in that insertion order. -/
def stABxy : InitialState where
  base := [("A", .int 1), ("B", .str "x")]
  defaults := [("A", .int 0), ("B", .str "y")]
  domain := [("A", [.i 0, .i 1]), ("B", [.s "x", .s "y"])]
  override := [("A", .int 1), ("B", .str "x")]

/-- A fresh (no-override) `InitialState` with the defaults and domains of
`infoAB`. -/
def stABfresh : InitialState where
  base := [("A", .int 0), ("B", .str "y")]
  defaults := [("A", .int 0), ("B", .str "y")]
  domain := [("A", [.i 0, .i 1]), ("B", [.s "x", .s "y"])]
  override := []

/-- A loaded model over `infoAB` with no named states yet. -/
def mAB : Model where
  cls := .fileModel
  filename := some "f.an"
  data := none
  info := some infoAB
  initial_state := none
  named_states := []

/-- The `InitialState` constructed from `infoC`. -/
def stC : InitialState where
  base := [("C", .int 2)]
  defaults := [("C", .int 2)]
  domain := [("C", [.i 0, .i 1, .i 2])]
  override := []

/-- `stC` after `set("C", [0, 1])`: the override is the normalized tuple. -/
def stC1 : InitialState where
  base := [("C", .tuple [.int 0, .int 1])]
  defaults := [("C", .int 2)]
  domain := [("C", [.i 0, .i 1, .i 2])]
  override := [("C", .tuple [.int 0, .int 1])]

/-- The `InitialState` constructed from `infoS`. -/
def stS : InitialState where
  base := [("A", .str "a")]
  defaults := [("A", .str "a")]
  domain := [("A", [.s "a", .s "b"])]
  override := []

/-- `stS` after `set("A", "ab")` (accepted by the character-subset test). -/
def stS1 : InitialState where
  base := [("A", .str "ab")]
  defaults := [("A", .str "a")]
  domain := [("A", [.s "a", .s "b"])]
  override := [("A", .str "ab")]

/-- `stABover` after `set("A", 0)` (writing the default removes the
override; the inherited dict `base` is left stale by that branch). -/
def stABdel : InitialState where
  base := [("A", .int 1), ("B", .str "y")]
  defaults := [("A", .int 0), ("B", .str "y")]
  domain := [("A", [.i 0, .i 1]), ("B", [.s "x", .s "y"])]
  override := []

/-- The named `InitialState` produced by registering the state mapping
`{A: [0, 1], B: "x"}` on `mAB`: the list entry for `A` is normalized to a
tuple in `defaults` (the inherited dict `base` keeps the raw entries). -/
def stC10 : InitialState where
  base := [("A", .list [.int 0, .int 1]), ("B", .str "x")]
  defaults := [("A", .tuple [.int 0, .int 1]), ("B", .str "x")]
  domain := [("A", [.i 0, .i 1]), ("B", [.s "x", .s "y"])]
  override := []

/-- `mAB` after registering `stC10` under the name `alt`. -/
def mABalt : Model where
  cls := .fileModel
  filename := some "f.an"
  data := none
  info := some infoAB
  initial_state := none
  named_states := [("alt", stC10)]

/-!
## Lemmas about the association-list dictionary operations
-/

theorem assocLookup_assocSet_self {α : Type} (l : List (String × α)) (k : String) (v : α) :
    assocLookup (assocSet l k v) k = some v := by
  induction l with
  | nil => simp [assocSet, assocLookup]
  | cons p rest ih =>
    obtain ⟨k0, v0⟩ := p
    simp only [assocSet]
    by_cases h : k0 = k
    · simp [h, assocLookup]
    · simp [h, assocLookup, ih]

theorem assocLookup_assocSet_ne {α : Type} (l : List (String × α)) (k k' : String) (v : α)
    (h : k' ≠ k) : assocLookup (assocSet l k v) k' = assocLookup l k' := by
  induction l with
  | nil => simp [assocSet, assocLookup, Ne.symm h]
  | cons p rest ih =>
    obtain ⟨k0, v0⟩ := p
    simp only [assocSet]
    by_cases h0 : k0 = k
    · subst h0
      simp [assocLookup, Ne.symm h]
    · simp [h0, assocLookup, ih]

theorem assocLookup_assocErase_self {α : Type} (l : List (String × α)) (k : String) :
    assocLookup (assocErase l k) k = none := by
  induction l with
  | nil => simp [assocErase, assocLookup]
  | cons p rest ih =>
    obtain ⟨k0, v0⟩ := p
    simp only [assocErase]
    by_cases h : k0 = k
    · simp [h, ih]
    · simp [h, assocLookup, ih]

theorem assocLookup_assocErase_ne {α : Type} (l : List (String × α)) (k k' : String)
    (h : k' ≠ k) : assocLookup (assocErase l k) k' = assocLookup l k' := by
  induction l with
  | nil => simp [assocErase]
  | cons p rest ih =>
    obtain ⟨k0, v0⟩ := p
    simp only [assocErase]
    by_cases h0 : k0 = k
    · subst h0
      simp [assocLookup, Ne.symm h, ih]
    · simp [h0, assocLookup, ih]


/-!
## Claim theorems
-/

/-- C1: the claim says a compound override such as `(0, 1)` on `C`
serializes as the separate bare terms `"C"=0,"C"=1`; on the code,
`fmt_values` returns one unflattened singleton list per element, so each
term renders the Python `repr` of that list: `set("C", [0, 1])` on the
3-valued domain `{0,1,2}` serializes as `"C"=['0'],"C"=['1']`. -/
theorem c1_compound_override_serialization :
    InitialState.init infoC none = .ok stC ∧
    stC.setitem "C" (.list [.int 0, .int 1]) = .ok stC1 ∧
    stC1.to_pint = "\"C\"=[\x270\x27],\"C\"=[\x271\x27]" ∧
    stC1.to_pint ≠ "\"C\"=0,\"C\"=1" := by
  refine ⟨by rfl, by rfl, by rfl, by decide⟩

/-- C2: the claim says every out-of-domain scalar write fails with the
value error reporting the domain; on the code, the string `"ab"` — not a
member of the domain `{a, b}` — is accepted as an override because
`issuperset(set("ab"))` tests its character set, and the out-of-domain
integer `99` raises the iteration `TypeError` instead of the value error. -/
theorem c2_out_of_domain_scalar :
    InitialState.init infoS none = .ok stS ∧
    memDom (.str "ab") [PyScalar.s "a", PyScalar.s "b"] = false ∧
    stS.setitem "A" (.str "ab") = .ok stS1 ∧
    assocLookup stS1.override "A" = some (.str "ab") ∧
    stS1.getitem "A" = .ok (.str "ab") ∧
    InitialState.init infoAB none = .ok stABfresh ∧
    stABfresh.setitem "A" (.int 99) =
      .error (.typeError "\x27int\x27 object is not iterable") := by
  refine ⟨by rfl, by decide, by rfl, by rfl, by rfl, by rfl, by rfl⟩

/-- C3: the claim says `set(a, defaults[a])` always succeeds, also with no
prior override; on the code, the unguarded `del self.__override[key]`
raises `KeyError` exactly in the no-prior-override case, while with a prior
override the write does succeed and removes the override. -/
theorem c3_write_default_value :
    InitialState.init infoAB none = .ok stABfresh ∧
    assocLookup stABfresh.defaults "A" = some (.int 0) ∧
    assocLookup stABfresh.override "A" = none ∧
    stABfresh.setitem "A" (.int 0) = .error (.keyError "A") ∧
    stABfresh.setitem "A" (.int 1) = .ok stABover ∧
    stABover.setitem "A" (.int 0) = .ok stABdel ∧
    stABdel.override = [] := by
  refine ⟨by rfl, by rfl, by rfl, by rfl, by rfl, by rfl, by rfl⟩

/-- C4 counterexample: the claim says `delete(a)` must not raise when no
override on `a` exists; on the fresh `InitialState` of `infoAB`, which has
no override on `A`, `del self.__override[key]` raises `KeyError("A")`. -/
theorem c4_delete_no_override_counterexample :
    InitialState.init infoAB none = .ok stABfresh ∧
    assocLookup stABfresh.override "A" = none ∧
    stABfresh.delitem "A" = .error (.keyError "A") := by
  refine ⟨by rfl, by rfl, by rfl⟩

/-- C7: the claim says a declared supported format bypasses extension
handling even for a dotless filename; on the code,
`name = bname[:-len(ext)-1]` is computed before the declared format is
consulted, so `load("model", format="an")` on an existing local file
raises `TypeError` from `len(None)`. -/
theorem c7_declared_format_dotless :
    file_ext "model" = none ∧
    supportedFormat "an" ∧
    load "model" (some "an") false true true =
      .error (.typeError "object of type \x27NoneType\x27 has no len()") := by
  refine ⟨by rfl, Or.inl rfl, by rfl⟩

/-- C9: constructing `InMemoryModel(data)` always raises: `load()` invokes
the `populate_popen_args` hook, whose `super(FileModel, self)` call fails
with `TypeError` because `InMemoryModel` is not a subclass of `FileModel`;
this holds for every `data` and every outcome of the external subprocess. -/
theorem c9_inmemorymodel_never_constructs :
    ∀ (data : String) (oracle : PopenArgs → Except PyErr Info),
      InMemoryModel.new data oracle =
        .error (.typeError "super(type, obj): obj must be an instance or subtype of type") := by
  intro data oracle
  rfl

/-- C8: after `reset()`, `serialize()` is the empty string, `is_custom()`
is false, the apparent value of every automaton is its default (an unknown
key still raises `KeyError`), and the defaults mapping is unchanged. -/
theorem c8_reset_restores_defaults :
    ∀ st : InitialState,
      (st.reset).to_pint = "" ∧
      (st.reset).is_custom = false ∧
      (∀ a, (st.reset).getitem a =
        match assocLookup st.defaults a with
        | some d => .ok d
        | none => .error (.keyError a)) ∧
      (st.reset).defaults = st.defaults := by
  intro st
  refine ⟨rfl, rfl, ?_, rfl⟩
  intro a
  unfold InitialState.reset InitialState.getitem
  cases h : assocLookup st.defaults a <;> simp [h, assocLookup]

theorem assocLookup_nil {α : Type} (k : String) :
    assocLookup ([] : List (String × α)) k = none := rfl

theorem assocLookup_cons {α : Type} (k0 : String) (v0 : α) (rest : List (String × α))
    (k : String) :
    assocLookup ((k0, v0) :: rest) k = if k0 = k then some v0 else assocLookup rest k := rfl

theorem string_length_append (a b : String) : (a ++ b).length = a.length + b.length := by
  cases a
  cases b
  simp [String.length, HAppend.hAppend, String.append]
  exact List.length_append _ _

theorem not_ufe_typeError (m : String) : ¬ isUnsupportedFormatError (.typeError m) := by
  rintro (⟨s, h⟩ | ⟨s, h⟩) <;> exact PyErr.noConfusion h

theorem not_ufe_assertEmpty : ¬ isUnsupportedFormatError (.assertionError "") := by
  rintro (⟨s, h⟩ | ⟨s, h⟩)
  · have h2 := PyErr.assertionError.inj h
    have h3 := congrArg String.length h2
    rw [string_length_append, string_length_append] at h3
    have e1 : ("" : String).length = 0 := rfl
    have e2 : ("Unknown extension \x27" : String).length = 19 := rfl
    have e3 : ("\x27" : String).length = 1 := rfl
    rw [e1, e2, e3] at h3
    omega
  · exact PyErr.noConfusion h

theorem ext2format_values_supported (e f : String) (h : assocLookup ext2format e = some f) :
    supportedFormat f := by
  simp only [ext2format, assocLookup_cons, assocLookup_nil] at h
  split_ifs at h <;>
    first
      | exact Option.noConfusion h
      | (injection h with h; subst h; decide)

/-- Classification of `load`'s dispatch step (its body after format
resolution, with the two success payloads generalized): an
`UnsupportedFormatError` comes out of it exactly for an unsupported format
once the existence check passes. -/
theorem dispatch_classification (f : String) (netloc ex : Bool) (r1 r2 : LoadResult) :
    (∃ e, (if (!netloc && !ex) = true then Except.error (PyErr.assertionError "")
           else if f = "an" then Except.ok r1
           else if f = "boolfunctions" || f = "boolsim" || f = "booleannet" || f = "sbml" then
             Except.ok r2
           else Except.error (PyErr.valueError ("Format \x27" ++ f ++ "\x27 is not supported."))) =
          (Except.error e : Except PyErr LoadResult) ∧
       isUnsupportedFormatError e) ↔
    (¬ supportedFormat f ∧ (netloc = true ∨ ex = true)) := by
  by_cases hreach : (!netloc && !ex) = true
  · rw [if_pos hreach]
    constructor
    · rintro ⟨e, he, hufe⟩
      injection he with he
      subst he
      exact absurd hufe not_ufe_assertEmpty
    · rintro ⟨hnsup, hr⟩
      exfalso
      rcases hr with h | h <;> rw [h] at hreach <;> simp at hreach
  · rw [if_neg hreach]
    by_cases han : f = "an"
    · rw [if_pos han]
      constructor
      · rintro ⟨e, he, _⟩
        exact absurd he (by simp)
      · rintro ⟨hnsup, _⟩
        exact absurd (Or.inl han) hnsup
    · rw [if_neg han]
      by_cases hfor : (f = "boolfunctions" || f = "boolsim" || f = "booleannet" || f = "sbml") = true
      · rw [if_pos hfor]
        constructor
        · rintro ⟨e, he, _⟩
          exact absurd he (by simp)
        · rintro ⟨hnsup, _⟩
          exfalso
          apply hnsup
          simp only [Bool.or_eq_true, decide_eq_true_eq] at hfor
          rcases hfor with ((h | h) | h) | h
          · exact Or.inr (Or.inl h)
          · exact Or.inr (Or.inr (Or.inl h))
          · exact Or.inr (Or.inr (Or.inr (Or.inl h)))
          · exact Or.inr (Or.inr (Or.inr (Or.inr h)))
      · rw [if_neg hfor]
        constructor
        · rintro ⟨e, he, _⟩
          refine ⟨?_, ?_⟩
          · rintro (h | h | h | h | h)
            · exact han h
            · exact hfor (by subst h; decide)
            · exact hfor (by subst h; decide)
            · exact hfor (by subst h; decide)
            · exact hfor (by subst h; decide)
          · rcases Bool.eq_false_or_eq_true netloc with hn | hn
            · exact Or.inl hn
            · rcases Bool.eq_false_or_eq_true ex with hx | hx
              · exact Or.inr hx
              · exfalso
                apply hreach
                rw [hn, hx]
                decide
        · rintro ⟨hnsup, hr⟩
          exact ⟨_, rfl, Or.inr ⟨f, rfl⟩⟩

theorem normTop_normTop (v : PyVal) : normTop (normTop v) = normTop v := by
  cases v <;> rfl

/-- Inversion for one step of the `__init__` loop that returned
successfully: all three dict lookups succeeded and the loop continued on
the updated state. -/
theorem initLoop_cons_ok (info : Info) (a : String) (rest : List String)
    (st st' : InitialState) (h : initLoop info st (a :: rest) = .ok st') :
    ∃ ls nls dv,
      assocLookup info.local_states a = some ls ∧
      assocLookup info.named_local_states a = some nls ∧
      assocLookup st.defaults a = some dv ∧
      initLoop info
        { base := st.base,
          defaults := (match dv with
            | PyVal.list xs => assocSet st.defaults a (.tuple xs)
            | _ => st.defaults),
          domain := assocSet st.domain a (ls.map PyScalar.i ++ nls.map PyScalar.s),
          override := st.override } rest = .ok st' := by
  simp only [initLoop] at h
  cases hls : assocLookup info.local_states a with
  | none => rw [hls] at h; simp at h
  | some ls =>
    rw [hls] at h
    cases hnls : assocLookup info.named_local_states a with
    | none => rw [hnls] at h; simp at h
    | some nls =>
      rw [hnls] at h
      cases hdv : assocLookup st.defaults a with
      | none => rw [hdv] at h; simp at h
      | some dv =>
        rw [hdv] at h
        cases dv <;> exact ⟨ls, nls, _, rfl, rfl, rfl, h⟩

/-- The `__init__` loop never touches `__override`. -/
theorem initLoop_override (info : Info) : ∀ (as : List String) (st st' : InitialState),
    initLoop info st as = .ok st' → st'.override = st.override := by
  intro as
  induction as with
  | nil =>
    intro st st' h
    injection h with h
    rw [← h]
  | cons a rest ih =>
    intro st st' h
    obtain ⟨ls, nls, dv, _, _, _, hrest⟩ := initLoop_cons_ok info a rest st st' h
    rw [ih _ _ hrest]

/-- After a successful `__init__` loop over `as`, the defaults of the
processed automata are normalized by `normTop` and all other entries are
untouched. -/
theorem initLoop_defaults (info : Info) : ∀ (as : List String) (st st' : InitialState),
    initLoop info st as = .ok st' →
    ∀ x, assocLookup st'.defaults x =
      if x ∈ as then (assocLookup st.defaults x).map normTop
      else assocLookup st.defaults x := by
  intro as
  induction as with
  | nil =>
    intro st st' h x
    injection h with h
    rw [← h]
    simp
  | cons a rest ih =>
    intro st st' h x
    obtain ⟨ls, nls, dv, _, _, hdv, hrest⟩ := initLoop_cons_ok info a rest st st' h
    have hd1 : ∀ y, assocLookup
        (match dv with
          | PyVal.list xs => assocSet st.defaults a (.tuple xs)
          | _ => st.defaults) y =
        if y = a then some (normTop dv) else assocLookup st.defaults y := by
      intro y
      by_cases hy : y = a
      · subst hy
        cases dv <;> simp [normTop, hdv, assocLookup_assocSet_self]
      · cases dv <;> simp [hy, assocLookup_assocSet_ne _ _ _ _ hy]
    have hih := ih _ _ hrest
    dsimp only at hih
    by_cases hy : x = a
    · subst hy
      rw [hih x]
      by_cases ha : x ∈ rest <;> simp [ha, hd1, hdv, normTop_normTop]
    · rw [hih x]
      simp [hd1, hy, List.mem_cons]

/-- If some automaton of `as` is missing from the defaults mapping (and the
metadata covers `as`), the `__init__` loop fails with a `KeyError` for such
an automaton. -/
theorem initLoop_error_of_missing (info : Info) : ∀ (as : List String) (st : InitialState),
    (∀ x ∈ as, (assocLookup info.local_states x).isSome ∧
      (assocLookup info.named_local_states x).isSome) →
    (∃ x ∈ as, assocLookup st.defaults x = none) →
    ∃ b, initLoop info st as = .error (.keyError b) ∧ b ∈ as ∧
      assocLookup st.defaults b = none := by
  intro as
  induction as with
  | nil =>
    rintro st _ ⟨x, hx, _⟩
    exact absurd hx (List.not_mem_nil x)
  | cons a rest ih =>
    rintro st hwf ⟨x, hxmem, hxnone⟩
    obtain ⟨hlsS, hnlsS⟩ := hwf a (List.mem_cons_self a rest)
    obtain ⟨ls, hls⟩ := Option.isSome_iff_exists.mp hlsS
    obtain ⟨nls, hnls⟩ := Option.isSome_iff_exists.mp hnlsS
    simp only [initLoop]
    rw [hls, hnls]
    cases hda : assocLookup st.defaults a with
    | none =>
      exact ⟨a, rfl, List.mem_cons_self a rest, hda⟩
    | some dv =>
      have hxa : x ≠ a := by
        intro he
        rw [he, hda] at hxnone
        exact Option.noConfusion hxnone
      have hxrest : x ∈ rest := by
        rcases List.mem_cons.mp hxmem with h | h
        · exact absurd h hxa
        · exact h
      cases dv
      case list xs =>
        obtain ⟨b, herr, hbrest, hbnone2⟩ :=
          ih { base := st.base,
               defaults := assocSet st.defaults a (PyVal.tuple xs),
               domain := assocSet st.domain a (ls.map PyScalar.i ++ nls.map PyScalar.s),
               override := st.override }
            (fun y hy => hwf y (List.mem_cons_of_mem a hy))
            ⟨x, hxrest, by
              rw [assocLookup_assocSet_ne _ _ _ _ hxa]
              exact hxnone⟩
        have hba : b ≠ a := by
          intro he
          rw [he, assocLookup_assocSet_self] at hbnone2
          exact Option.noConfusion hbnone2
        refine ⟨b, herr, List.mem_cons_of_mem a hbrest, ?_⟩
        rw [← assocLookup_assocSet_ne st.defaults a b (PyVal.tuple xs) hba]
        exact hbnone2
      all_goals
        obtain ⟨b, herr, hbrest, hbnone2⟩ :=
          ih { base := st.base,
               defaults := st.defaults,
               domain := assocSet st.domain a (ls.map PyScalar.i ++ nls.map PyScalar.s),
               override := st.override }
            (fun y hy => hwf y (List.mem_cons_of_mem a hy))
            ⟨x, hxrest, hxnone⟩
      all_goals exact ⟨b, herr, List.mem_cons_of_mem a hbrest, hbnone2⟩

/-- When all three metadata lookups succeed for every automaton of `as`,
the `__init__` loop succeeds. -/
theorem initLoop_ok_of_covered (info : Info) : ∀ (as : List String) (st : InitialState),
    (∀ x ∈ as, (assocLookup info.local_states x).isSome ∧
      (assocLookup info.named_local_states x).isSome ∧
      (assocLookup st.defaults x).isSome) →
    ∃ st', initLoop info st as = .ok st' := by
  intro as
  induction as with
  | nil =>
    intro st _
    exact ⟨st, rfl⟩
  | cons a rest ih =>
    intro st hwf
    obtain ⟨hlsS, hnlsS, hdaS⟩ := hwf a (List.mem_cons_self a rest)
    obtain ⟨ls, hls⟩ := Option.isSome_iff_exists.mp hlsS
    obtain ⟨nls, hnls⟩ := Option.isSome_iff_exists.mp hnlsS
    obtain ⟨dv, hda⟩ := Option.isSome_iff_exists.mp hdaS
    simp only [initLoop]
    rw [hls, hnls, hda]
    cases dv
    case list xs =>
      apply ih
      intro y hy
      obtain ⟨h1, h2, h3⟩ := hwf y (List.mem_cons_of_mem a hy)
      refine ⟨h1, h2, ?_⟩
      by_cases hya : y = a
      · subst hya
        rw [assocLookup_assocSet_self]
        rfl
      · rw [assocLookup_assocSet_ne _ _ _ _ hya]
        exact h3
    all_goals
      apply ih
      intro y hy
      exact hwf y (List.mem_cons_of_mem a hy)

/-- C4 (amended): `delete(a)` removes the override on `a` when one exists,
after which the apparent value of `a` reverts to `defaults[a]`; when no
override on `a` exists, `delete(a)` raises `KeyError` (the dict semantics
of the unguarded `del self.__override[key]`). -/
theorem c4_delete_amended :
    ∀ (st : InitialState) (key : String) (d : PyVal),
      assocLookup st.defaults key = some d →
      ((assocLookup st.override key = none →
          st.delitem key = .error (.keyError key)) ∧
       (∀ v, assocLookup st.override key = some v →
          ∃ st', st.delitem key = .ok st' ∧
            assocLookup st'.override key = none ∧
            st'.getitem key = .ok d ∧
            st'.defaults = st.defaults)) := by
  intro st key d hd
  constructor
  · intro hnone
    simp only [InitialState.delitem, hnone]
  · intro v hv
    refine ⟨{ st with override := assocErase st.override key, base := assocSet st.base key d },
      ?_, ?_, ?_, rfl⟩
    · simp only [InitialState.delitem, hv, hd]
    · exact assocLookup_assocErase_self _ _
    · simp only [InitialState.getitem, hd, assocLookup_assocErase_self, Option.getD_none]

/-- Witness for C4's amended theorem at `stABover` (override present on `A`,
default `0`). -/
theorem c4_delete_amended_witness :
    ∃ st', stABover.delitem "A" = .ok st' ∧
      assocLookup st'.override "A" = none ∧
      st'.getitem "A" = .ok (.int 0) ∧
      st'.defaults = stABover.defaults :=
  (c4_delete_amended stABover "A" (.int 0) (by rfl)).2 (.int 1) (by rfl)

/-- C5: `serialize()` encodes only the overrides, one term per scalar
override, comma-joined in insertion order: any `InitialState` whose
override mapping is exactly `{A: 1, B: "x"}` (in that order) serializes to
`"A"=1,"B"="x"`, and re-applying those overrides through `set` on a fresh
`InitialState` with the same defaults and domains reproduces the same
apparent state on every automaton. -/
theorem c5_serialize_roundtrip :
    ∀ (st fresh : InitialState) (dA dB : PyVal) (domA domB : List PyScalar),
      st.override = [("A", .int 1), ("B", .str "x")] →
      assocLookup st.defaults "A" = some dA →
      assocLookup st.defaults "B" = some dB →
      assocLookup st.domain "A" = some domA →
      assocLookup st.domain "B" = some domB →
      PyScalar.i 1 ∈ domA → PyScalar.s "x" ∈ domB →
      dA ≠ .int 1 → dB ≠ .str "x" →
      fresh.override = [] → fresh.defaults = st.defaults → fresh.domain = st.domain →
      st.to_pint = "\"A\"=1,\"B\"=\"x\"" ∧
      ∃ st1 st2, fresh.setitem "A" (.int 1) = .ok st1 ∧
        st1.setitem "B" (.str "x") = .ok st2 ∧
        ∀ k, st2.getitem k = st.getitem k := by
  rintro ⟨sb, sd, sdom, sov⟩ ⟨fb, fd, fdom, fov⟩ dA dB domA domB hov hdA hdB hdomA hdomB
    hmemA hmemB hneA hneB hfov hfd hfdom
  dsimp only at hov hdA hdB hdomA hdomB hfov hfd hfdom
  subst hov hfov hfd hfdom
  constructor
  · rfl
  · refine ⟨⟨assocSet fb "A" (.int 1), fd, fdom, [("A", .int 1)]⟩,
      ⟨assocSet (assocSet fb "A" (.int 1)) "B" (.str "x"), fd, fdom,
        [("A", .int 1), ("B", .str "x")]⟩, ?_, ?_, ?_⟩
    · simp only [InitialState.setitem, hdA, hdomA, isScalarType, memDom,
        decide_eq_true hmemA, Bool.true_and, if_true]
      rw [if_neg (fun h => hneA h.symm)]
      rfl
    · simp only [InitialState.setitem, hdB, hdomB, isScalarType, memDom,
        decide_eq_true hmemB, Bool.true_and, if_true]
      rw [if_neg (fun h => hneB h.symm)]
      rfl
    · intro k
      rfl

/-- Witness for C5 at the concrete `infoAB` states. -/
theorem c5_serialize_roundtrip_witness :
    stABxy.to_pint = "\"A\"=1,\"B\"=\"x\"" ∧
    ∃ st1 st2, stABfresh.setitem "A" (.int 1) = .ok st1 ∧
      st1.setitem "B" (.str "x") = .ok st2 ∧
      ∀ k, st2.getitem k = stABxy.getitem k :=
  c5_serialize_roundtrip stABxy stABfresh (.int 0) (.str "y")
    [.i 0, .i 1] [.s "x", .s "y"]
    (by rfl) (by rfl) (by rfl) (by rfl) (by rfl)
    (by decide) (by decide) (by decide) (by decide)
    (by rfl) (by rfl) (by rfl)

/-- C6 counterexample: the claim's "exactly when" fails in two corners.
With `load("model.an", format="zginml")` on a missing local file the
claim's condition holds (resolved format outside the supported sets) yet
the code fails with the bare existence assertion, not an
`UnsupportedFormatError`; and with a dotless filename and no declared
format the condition holds (no table entry) yet the code raises a
`TypeError` from `len(None)`. -/
theorem c6_unsupported_format_counterexample :
    load "model.an" (some "zginml") false false true = .error (.assertionError "") ∧
    claimC6Condition "model.an" (some "zginml") ∧
    ¬ ((∃ e, load "model.an" (some "zginml") false false true = .error e ∧
          isUnsupportedFormatError e) ↔
        claimC6Condition "model.an" (some "zginml")) ∧
    file_ext "model" = none ∧
    claimC6Condition "model" none ∧
    load "model" none false true true =
      .error (.typeError "object of type \x27NoneType\x27 has no len()") ∧
    ¬ ((∃ e, load "model" none false true true = .error e ∧ isUnsupportedFormatError e) ↔
        claimC6Condition "model" none) := by
  have h1 : load "model.an" (some "zginml") false false true =
      .error (.assertionError "") := by rfl
  have h2 : claimC6Condition "model.an" (some "zginml") :=
    Or.inr ⟨"zginml", by rfl, by decide⟩
  have h4 : file_ext "model" = none := by rfl
  have h5 : claimC6Condition "model" none := Or.inl ⟨rfl, by rfl⟩
  have h6 : load "model" none false true true =
      .error (.typeError "object of type \x27NoneType\x27 has no len()") := by rfl
  refine ⟨h1, h2, ?_, h4, h5, h6, ?_⟩
  · intro hiff
    obtain ⟨e, he, hufe⟩ := hiff.mpr h2
    rw [h1] at he
    injection he with he
    subst he
    exact not_ufe_assertEmpty hufe
  · intro hiff
    obtain ⟨e, he, hufe⟩ := hiff.mpr h5
    rw [h6] at he
    injection he with he
    subst he
    exact not_ufe_typeError _ hufe

/-- C6 (amended): `load` fails with `UnsupportedFormatError` exactly when
the filename has an extension and either no format is declared and the
extension is absent from `ext2format`, or the resolved format is outside
the native and foreign sets and the fetch/existence step passes (remote
path, or existing local file); a dotless filename raises `TypeError`
before format resolution, and a missing local file fails its precondition
assertion before the format dispatch. -/
theorem c6_unsupported_format_amended :
    ∀ (filename : String) (format : Option String) (netloc ex s : Bool),
      (∃ e, load filename format netloc ex s = .error e ∧ isUnsupportedFormatError e) ↔
      ((file_ext filename).isSome ∧
        ((format = none ∧ (file_ext filename).bind (fun e => assocLookup ext2format e) = none) ∨
         (∃ f, resolvedFormat filename format = some f ∧ ¬ supportedFormat f ∧
           (netloc = true ∨ ex = true)))) := by
  intro filename format netloc ex s
  cases hext : file_ext filename with
  | none =>
    simp only [load, hext]
    constructor
    · rintro ⟨e, he, hufe⟩
      injection he with he
      subst he
      exact absurd hufe (not_ufe_typeError _)
    · rintro ⟨hsome, _⟩
      simp at hsome
  | some ext =>
    cases format with
    | none =>
      cases htab : assocLookup ext2format ext with
      | none =>
        simp only [load, hext, htab]
        constructor
        · intro _
          refine ⟨by simp, Or.inl ⟨trivial, ?_⟩⟩
          simp only [Option.some_bind]
          exact htab
        · intro _
          exact ⟨_, rfl, Or.inl ⟨ext, rfl⟩⟩
      | some f =>
        have hsup := ext2format_values_supported ext f htab
        simp only [load, hext, htab]
        rw [dispatch_classification]
        constructor
        · rintro ⟨hnsup, _⟩
          exact absurd hsup hnsup
        · rintro ⟨_, ⟨_, habs⟩ | ⟨f', hres, hnsup, hr⟩⟩
          · simp only [Option.some_bind] at habs
            rw [htab] at habs
            exact Option.noConfusion habs
          · exfalso
            apply hnsup
            simp only [resolvedFormat, hext, Option.some_bind, htab] at hres
            injection hres with hres
            subst hres
            exact hsup
    | some f =>
      simp only [load, hext]
      rw [dispatch_classification]
      constructor
      · rintro ⟨hnsup, hr⟩
        exact ⟨rfl, Or.inr ⟨f, rfl, hnsup, hr⟩⟩
      · rintro ⟨_, ⟨hfmt, _⟩ | ⟨f', hres, hnsup, hr⟩⟩
        · exact Option.noConfusion hfmt
        · simp only [resolvedFormat] at hres
          injection hres with hres
          subst hres
          exact ⟨hnsup, hr⟩

/-- C10 counterexample: the claim says the named state's apparent value for
each automaton equals the given state entry; registering the mapping
`{A: [0, 1], B: "x"}` on `mAB` succeeds, but the apparent value of `A` is
the tuple `(0, 1)`, which Python `==` distinguishes from the given list
entry `[0, 1]`. -/
theorem c10_register_state_counterexample :
    mAB.register_state "alt" [("A", .list [.int 0, .int 1]), ("B", .str "x")] = .ok mABalt ∧
    assocLookup mABalt.named_states "alt" = some stC10 ∧
    stC10.getitem "A" = .ok (.tuple [.int 0, .int 1]) ∧
    stC10.getitem "A" ≠ .ok (.list [.int 0, .int 1]) := by
  refine ⟨by rfl, by rfl, by rfl, ?_⟩
  intro h
  rw [(by rfl : stC10.getitem "A" = Except.ok (PyVal.tuple [PyVal.int 0, PyVal.int 1]))] at h
  have h2 := Except.ok.inj h
  exact PyVal.noConfusion h2

/-- C10 (amended): `Model.register_state(name, state)` requires `state` to
cover every automaton of the metadata: if one is missing, the constructor
raises `KeyError` for such an automaton and the named state is not
registered; when all are covered, the new named state is registered under
`name`, has no overrides (`is_custom()` false), and its apparent value for
each automaton is the given state entry with a top-level list normalized
to a tuple. -/
theorem c10_register_state_amended :
    ∀ (m : Model) (info : Info) (name : String) (state : List (String × PyVal)),
      m.info = some info →
      (∀ x ∈ info.automata, (assocLookup info.local_states x).isSome ∧
        (assocLookup info.named_local_states x).isSome) →
      ((∃ x ∈ info.automata, assocLookup state x = none) →
        ∃ b, m.register_state name state = .error (.keyError b) ∧
          b ∈ info.automata ∧ assocLookup state b = none) ∧
      ((∀ x ∈ info.automata, (assocLookup state x).isSome) →
        ∃ m' st, m.register_state name state = .ok m' ∧
          assocLookup m'.named_states name = some st ∧
          st.is_custom = false ∧
          ∀ a v, a ∈ info.automata → assocLookup state a = some v →
            st.getitem a = .ok (normTop v)) := by
  intro m info name state hinfo hwf
  constructor
  · intro hmiss
    obtain ⟨b, herr, hbmem, hbnone⟩ := initLoop_error_of_missing info info.automata
      { base := state, defaults := state, domain := [], override := [] } hwf hmiss
    have hinit : InitialState.init info (some state) = .error (.keyError b) := by
      unfold InitialState.init
      exact herr
    refine ⟨b, ?_, hbmem, hbnone⟩
    simp only [Model.register_state, hinfo, hinit]
  · intro hcov
    obtain ⟨st', hok⟩ := initLoop_ok_of_covered info info.automata
      { base := state, defaults := state, domain := [], override := [] }
      (fun y hy => ⟨(hwf y hy).1, (hwf y hy).2, hcov y hy⟩)
    have hinit : InitialState.init info (some state) = .ok st' := by
      unfold InitialState.init
      exact hok
    have hov := initLoop_override info info.automata _ _ hok
    have hdef := initLoop_defaults info info.automata _ _ hok
    refine ⟨{ m with named_states := assocSet m.named_states name st' }, st', ?_, ?_, ?_, ?_⟩
    · simp only [Model.register_state, hinfo, hinit]
    · exact assocLookup_assocSet_self _ _ _
    · unfold InitialState.is_custom
      rw [hov]
      rfl
    · intro a v ha hv
      unfold InitialState.getitem
      rw [hdef a]
      simp only [ha, if_true]
      rw [hov]
      dsimp only at hv ⊢
      rw [hv]
      rfl

/-- Witness for C10's amended theorem on `mAB`: a state mapping missing
automaton `B` raises `KeyError("B")`, and a covering state mapping
registers a named state with the expected apparent values. -/
theorem c10_register_state_amended_witness :
    (∃ b, mAB.register_state "s" [("A", PyVal.int 1)] = .error (.keyError b) ∧
      b ∈ infoAB.automata ∧ assocLookup [("A", PyVal.int 1)] b = none) ∧
    (∃ m' st, mAB.register_state "s2" [("A", PyVal.int 1), ("B", PyVal.str "x")] = .ok m' ∧
      assocLookup m'.named_states "s2" = some st ∧
      st.is_custom = false ∧
      ∀ a v, a ∈ infoAB.automata →
        assocLookup [("A", PyVal.int 1), ("B", PyVal.str "x")] a = some v →
        st.getitem a = .ok (normTop v)) :=
  ⟨(c10_register_state_amended mAB infoAB "s" [("A", PyVal.int 1)] (by rfl) (by decide)).1
      ⟨"B", by decide, by rfl⟩,
   (c10_register_state_amended mAB infoAB "s2" [("A", PyVal.int 1), ("B", PyVal.str "x")]
      (by rfl) (by decide)).2 (by decide)⟩
